import Mathlib

/-!
Shallow embedding of the `asciime` rendering engine
(`src/hooks/useAny2Ascii.ts`, `src/lib/media-utils.ts`, `AsciiMe` component),
together with theorems settling the claims about its specification.

Machine numbers in the source are JavaScript numbers used exactly
(small integers, divisions by 100, rational ratios), so they are modelled
with `Nat`/`Int`/`Rat`.  GPU objects (shaders, programs, textures, buffers)
are modelled as abstract handles (`Nat`) drawn from a fresh-handle counter,
with a `liveGpu` list recording the handles that have been allocated and not
deleted.  The single-threaded, event-driven host loop is modelled as a step
function on an explicit engine state.
-/

/-! ## Media type detection (`src/lib/media-utils.ts`) -/

inductive MediaType where
  | video
  | image
deriving Repr, DecidableEq

/-- One step of splitting a character list at a separator character,
mirroring JavaScript `String.prototype.split` with a one-character
separator (`"".split(s) = [""]`, empty fields kept). -/
def splitOnCharAux (sep : Char) : List Char → List Char → List (List Char)
  | [], acc => [acc.reverse]
  | c :: cs, acc =>
      if c = sep then acc.reverse :: splitOnCharAux sep cs []
      else splitOnCharAux sep cs (c :: acc)

/-- JavaScript `str.split(sep)` for a single-character separator. -/
def splitOnChar (sep : Char) (s : List Char) : List (List Char) :=
  splitOnCharAux sep s []

/-- The image extension list of `detectMediaType`. -/
def imageExtensions : List String :=
  ["jpg", "jpeg", "png", "webp", "bmp", "svg"]

/-- `detectMediaType` from `src/lib/media-utils.ts`: strip query parameters,
take the text after the last dot, lowercase it, and classify; everything not
in `imageExtensions` (including `gif`) is treated as video. -/
def detectMediaType (src : String) : MediaType :=
  if src = "" then .video
  else
    let urlParts := (splitOnChar '?' src.data).headI
    let extension := ((splitOnChar '.' urlParts).getLast?.getD []).map Char.toLower
    if imageExtensions.contains (String.mk extension) then .image else .video

/-- `resolvedMediaType` from the `AsciiMe` component: the explicit
`mediaType` prop when given, else auto-detection from `src`. -/
def resolvedMediaType (explicit : Option MediaType) (src : String) : MediaType :=
  explicit.getD (detectMediaType src)

/-! ## Per-frame uniform value computation -/

/-- `u_blend` value written in `render`/`renderFrame`: `blend / 100`, no clamping. -/
def blendUniform (blend : ℚ) : ℚ := blend / 100

/-- `u_highlight` value written in `render`/`renderFrame`: `highlight / 100`, no clamping. -/
def highlightUniform (highlight : ℚ) : ℚ := highlight / 100

/-- `ditherModeValue` from `initWebGL`:
`dither === "bayer" ? 1 : dither === "random" ? 2 : 0` (written with `uniform1f`). -/
def ditherModeValue (dither : String) : ℚ :=
  if dither = "bayer" then 1 else if dither = "random" then 2 else 0

/-! ## Uniform registry (`uniformSettersRef`, a JavaScript `Map`) -/

/-- JavaScript `Map.prototype.set`: replace in place when the key is
present, append otherwise. -/
def mapSet {α : Type} (m : List (String × α)) (id : String) (v : α) :
    List (String × α) :=
  if m.any (fun p => p.1 == id) then
    m.map (fun p => if p.1 == id then (id, v) else p)
  else m ++ [(id, v)]

/-- JavaScript `Map.prototype.delete`. -/
def mapDelete {α : Type} (m : List (String × α)) (id : String) :
    List (String × α) :=
  m.filter (fun p => p.1 != id)

/-- `registerUniformSetter(id, setter)`: `uniformSettersRef.current.set(id, setter)`. -/
def registerUniformSetter {α : Type} (m : List (String × α)) (id : String)
    (setter : α) : List (String × α) :=
  mapSet m id setter

/-- `unregisterUniformSetter(id)`: `uniformSettersRef.current.delete(id)`. -/
def unregisterUniformSetter {α : Type} (m : List (String × α)) (id : String) :
    List (String × α) :=
  mapDelete m id

/-- The contributor ids a frame tick invokes: `render` iterates
`uniformSettersRef.current.values()`, i.e. exactly the registered entries. -/
def tickInvokedIds {α : Type} (m : List (String × α)) : List String :=
  m.map Prod.fst

/-! ## Grid sizing -/

/-- Modelled from the spec: `calculateGridDimensions` is imported from
`@/lib/webgl`, whose source file is not among the provided sources.  The
spec states `rows = round(targetColumns * (mediaH/mediaW) /
characterCellAspectRatio)`, clamped to ≥ 1, and `columns = targetColumns`.
The character cell aspect ratio is a parameter (`CHAR_WIDTH_RATIO` in the
source, 0.5 in the spec's worked example). -/
def calculateGridDimensions (mediaW mediaH targetColumns : ℕ) (aspect : ℚ) :
    ℕ × ℤ :=
  (targetColumns,
    max 1 (round ((targetColumns : ℚ) * ((mediaH : ℚ) / (mediaW : ℚ)) / aspect)))

/-! ## Frame statistics (`render`, lines 348–365) -/

structure StatsState where
  frameCount : ℕ
  frameTimes : List ℚ
  lastFpsTime : ℚ
deriving Repr, DecidableEq

/-- The statistics bookkeeping of one `render` tick: increment the frame
counter, push the frame duration, trim the history to 60 samples, and if at
least 1000 ms have passed since the last emission, emit
`(fps, averageFrameTime)` and reset. -/
def statsTick (now frameDuration : ℚ) (s : StatsState) :
    StatsState × Option (ℕ × ℚ) :=
  let frameCount := s.frameCount + 1
  let pushed := s.frameTimes ++ [frameDuration]
  let frameTimes := if pushed.length > 60 then pushed.tail else pushed
  if now - s.lastFpsTime ≥ 1000 then
    let avg := frameTimes.sum / (frameTimes.length : ℚ)
    (⟨0, frameTimes, now⟩, some (frameCount, avg))
  else
    (⟨frameCount, frameTimes, s.lastFpsTime⟩, none)

/-! ## Engine state

The mutable refs and React state of `useAny2Ascii`, together with an
abstract model of the WebGL object store and of the host's
`requestAnimationFrame`/`cancelAnimationFrame` scheduler.  GPU objects are
abstract handles: `nextGpuId` is the fresh-handle counter and `liveGpu`
lists the handles allocated and not yet deleted. -/

structure EngineState where
  nextGpuId : ℕ := 1
  liveGpu : List ℕ := []
  glCtx : Bool := false
  programRef : Option ℕ := none
  videoTextureRef : Option ℕ := none
  atlasTextureRef : Option ℕ := none
  locationsCached : Bool := false
  needsMipmapUpdate : Bool := true
  uBlend : Option ℚ := none
  uHighlight : Option ℚ := none
  uDitherMode : Option ℚ := none
  isReady : Bool := false
  isPlaying : Bool := false
  videoPaused : Bool := true
  videoEnded : Bool := false
  animationRef : ℕ := 0
  nextRafHandle : ℕ := 1
  pending : Option ℕ := none
  draws : ℕ := 0
  registry : List (String × ℕ) := []
  lastInvoked : List String := []
deriving Repr, DecidableEq

def EngineState.init : EngineState := {}

/-- Allocate a fresh GPU object handle (`gl.createShader`, `gl.createProgram`,
`gl.createTexture`, `gl.createBuffer`). -/
def allocGpu (s : EngineState) : ℕ × EngineState :=
  (s.nextGpuId,
    { s with nextGpuId := s.nextGpuId + 1, liveGpu := s.liveGpu ++ [s.nextGpuId] })

/-- Release a GPU object handle (`gl.deleteTexture`, `gl.deleteProgram`). -/
def deleteGpu (h : ℕ) (s : EngineState) : EngineState :=
  { s with liveGpu := s.liveGpu.filter (fun x => x ≠ h) }

/-- `requestAnimationFrame(render)`: hand out a fresh handle, store it in
`animationRef.current`, and record the pending scheduled tick. -/
def scheduleRaf (s : EngineState) : EngineState :=
  { s with animationRef := s.nextRafHandle,
           pending := some s.nextRafHandle,
           nextRafHandle := s.nextRafHandle + 1 }

/-- `cancelAnimationFrame(h)`: drop the pending tick when its handle is `h`. -/
def cancelRaf (h : ℕ) (s : EngineState) : EngineState :=
  if s.pending = some h then { s with pending := none } else s

/-- The external environment `initWebGL` probes: DOM elements, media
readiness, and which WebGL steps the driver lets succeed. -/
structure GlEnv where
  canvasOk : Bool
  containerOk : Bool
  mediaPresent : Bool
  mediaWidth : ℕ
  mediaHeight : ℕ
  imageComplete : Bool
  contextOk : Bool
  vertexCompiles : Bool
  fragmentCompiles : Bool
  linkOk : Bool
deriving Repr, DecidableEq

/-- An environment where every step of initialization succeeds. -/
def envOk : GlEnv :=
  ⟨true, true, true, 640, 480, true, true, true, true, true⟩

/-- Environment with no canvas element (first guard fails). -/
def envNoCanvas : GlEnv := { envOk with canvasOk := false }

/-- Environment where the WebGL2 context cannot be obtained. -/
def envNoCtx : GlEnv := { envOk with contextOk := false }

/-- Environment where the fragment shader fails to compile
(the vertex shader has already been compiled at that point). -/
def envFragFail : GlEnv := { envOk with fragmentCompiles := false }

/-- Environment where program linking fails
(both shaders have already been compiled at that point). -/
def envLinkFail : GlEnv := { envOk with linkOk := false }

/-- The per-render configuration props of the hook. -/
structure Config where
  colored : Bool
  blend : ℚ
  highlight : ℚ
  brightness : ℚ
  dither : String
deriving Repr, DecidableEq

def cfg0 : Config := ⟨true, 0, 0, 1, "none"⟩

/-- `renderFrame` (single-shot image render): guard on refs, upload the
image, regenerate mipmaps if flagged, write per-frame uniforms, invoke the
registered uniform setters, issue one draw call.  Never schedules a tick. -/
def renderFrame (cfg : Config) (imagePresent : Bool) (s : EngineState) :
    EngineState :=
  if s.glCtx = false ∨ imagePresent = false ∨ s.programRef = none ∨
      s.locationsCached = false then s
  else
    let s := if s.needsMipmapUpdate then { s with needsMipmapUpdate := false } else s
    { s with uBlend := some (blendUniform cfg.blend),
             uHighlight := some (highlightUniform cfg.highlight),
             lastInvoked := tickInvokedIds s.registry,
             draws := s.draws + 1 }

/-- `render` (the loop tick body): guard on refs and media presence; for a
video source skip the tick if the video is paused or ended; otherwise
upload the frame, regenerate mipmaps if flagged (video only), write the
per-frame uniforms, invoke the registered setters, draw, and schedule the
next tick.  (The statistics bookkeeping is `statsTick`, modelled
separately.) -/
def render (mt : MediaType) (cfg : Config) (mediaPresent : Bool)
    (s : EngineState) : EngineState :=
  if s.glCtx = false ∨ s.programRef = none ∨ s.locationsCached = false then s
  else if mediaPresent = false then s
  else if mt = .video ∧ (s.videoPaused = true ∨ s.videoEnded = true) then s
  else
    let s := if mt = .video ∧ s.needsMipmapUpdate then
               { s with needsMipmapUpdate := false } else s
    scheduleRaf
      { s with uBlend := some (blendUniform cfg.blend),
               uHighlight := some (highlightUniform cfg.highlight),
               lastInvoked := tickInvokedIds s.registry,
               draws := s.draws + 1 }

/-- `initWebGL`, step for step:
guards (canvas/media/container present, media decoded), set the mipmap
flag, grid/canvas sizing, obtain the context, compile both shaders, link
the program, create the fullscreen quad buffer, create the media texture
only if absent (reused across reinitializations), set the filtering/mipmap
policy by media type, build a fresh atlas texture, cache uniform locations,
write static uniforms (among them `u_ditherMode`), mark ready, and for an
image source render one frame immediately. -/
def initWebGL (mt : MediaType) (env : GlEnv) (cfg : Config) (s : EngineState) :
    Bool × EngineState :=
  if env.canvasOk = false ∨ env.mediaPresent = false ∨ env.containerOk = false then
    (false, s)
  else if mt = .video ∧ env.mediaWidth = 0 then (false, s)
  else if mt = .image ∧ (env.mediaWidth = 0 ∨ env.imageComplete = false) then
    (false, s)
  else
    let s := { s with needsMipmapUpdate := true }
    if env.contextOk = false then (false, s)
    else
      let s := { s with glCtx := true }
      let (vertexShader, s) :=
        if env.vertexCompiles then
          let (h, s) := allocGpu s; (some h, s)
        else (none, s)
      let (fragmentShader, s) :=
        if env.fragmentCompiles then
          let (h, s) := allocGpu s; (some h, s)
        else (none, s)
      if vertexShader = none ∨ fragmentShader = none then (false, s)
      else if env.linkOk = false then (false, s)
      else
        let (program, s) := allocGpu s
        let s := { s with programRef := some program }
        let (_quadBuffer, s) := allocGpu s
        let s :=
          if s.videoTextureRef = none then
            let (t, s) := allocGpu s
            { s with videoTextureRef := some t }
          else s
        let s := { s with needsMipmapUpdate := mt = .video }
        let (atlas, s) := allocGpu s
        let s := { s with atlasTextureRef := some atlas,
                          locationsCached := true,
                          uDitherMode := some (ditherModeValue cfg.dither),
                          isReady := true }
        let s := if mt = .image then renderFrame cfg env.mediaPresent s else s
        (true, s)

/-! ## Host events -/

/-- The externally triggered events the hook reacts to. -/
inductive Ev where
  | play
  | pause
  | ended
  | unmountCleanup
  | tickFire
  | imageLoad
deriving Repr, DecidableEq

/-- One event-handling turn of the single-threaded host loop, mirroring the
hook's event handlers:
`handlePlay`/`handlePause`/`handleEnded` (video listeners),
`handleImageLoad` (image listener), the unmount cleanup effect, and the
firing of a pending `requestAnimationFrame` callback (which is always
`render`). -/
def step (mt : MediaType) (env : GlEnv) (cfg : Config) (e : Ev)
    (s : EngineState) : EngineState :=
  match e with
  | .play =>
      if mt = .video then
        scheduleRaf { s with videoPaused := false, isPlaying := true }
      else s
  | .pause =>
      if mt = .video then
        cancelRaf s.animationRef { s with videoPaused := true, isPlaying := false }
      else s
  | .ended =>
      if mt = .video then
        cancelRaf s.animationRef { s with videoEnded := true, isPlaying := false }
      else s
  | .unmountCleanup =>
      let s :=
        if s.glCtx then
          let s := match s.videoTextureRef with | some t => deleteGpu t s | none => s
          let s := match s.atlasTextureRef with | some t => deleteGpu t s | none => s
          match s.programRef with | some p => deleteGpu p s | none => s
        else s
      cancelRaf s.animationRef s
  | .tickFire =>
      match s.pending with
      | some _ => render mt cfg env.mediaPresent { s with pending := none }
      | none => s
  | .imageLoad =>
      if mt = .image then
        let s := (initWebGL mt env cfg s).2
        if s.registry.length > 0 then scheduleRaf s else s
      else s

/-- `k` firings of the pending animation-frame callback. -/
def ticks (mt : MediaType) (env : GlEnv) (cfg : Config) (k : ℕ)
    (s : EngineState) : EngineState :=
  (step mt env cfg .tickFire)^[k] s

/-- The state after one fully successful video initialization from scratch. -/
def sReady : EngineState := (initWebGL .video envOk cfg0 EngineState.init).2

/-- `sReady` after the video `play` event: the loop is `Running` with a
pending scheduled tick. -/
def sRunning : EngineState := step .video envOk cfg0 .play sReady

/-! # Theorems -/

/-- C5: for all positive `mediaW, mediaH, targetColumns` and positive character
cell aspect ratio, the grid-sizing function returns `columns = targetColumns`
and `rows = round(targetColumns * (mediaH/mediaW) / aspect)` clamped to ≥ 1,
which is within ±1 of the ideal aspect-preserving value; in particular
`computeGrid(640, 480, 80)` with aspect ratio 0.5 yields rows = 120. -/
theorem c5_computeGrid (w h c : ℕ) (aspect : ℚ)
    (hw : 0 < w) (hh : 0 < h) (hc : 0 < c) (hasp : 0 < aspect) :
    (calculateGridDimensions w h c aspect).1 = c ∧
    1 ≤ (calculateGridDimensions w h c aspect).2 ∧
    |((calculateGridDimensions w h c aspect).2 : ℚ) -
        (c : ℚ) * ((h : ℚ) / (w : ℚ)) / aspect| ≤ 1 ∧
    calculateGridDimensions 640 480 80 (1 / 2) = (80, 120) := by
  refine ⟨rfl, le_max_left _ _, ?_, by unfold calculateGridDimensions; norm_num⟩
  unfold calculateGridDimensions
  set q : ℚ := (c : ℚ) * ((h : ℚ) / (w : ℚ)) / aspect with hq
  have hqpos : 0 < q := by
    apply div_pos _ hasp
    exact mul_pos (by exact_mod_cast hc)
      (div_pos (by exact_mod_cast hh) (by exact_mod_cast hw))
  have hround := abs_sub_round q
  rcases le_or_lt 1 (round q) with hle | hlt
  · rw [max_eq_right hle, abs_sub_comm]
    exact hround.trans (by norm_num)
  · rw [max_eq_left hlt.le]
    have h2 : q - round q ≤ 1 / 2 := (abs_le.mp hround).2
    have h4 : ((round q : ℤ) : ℚ) ≤ 0 := by exact_mod_cast Int.lt_add_one_iff.mp hlt
    rw [abs_le]
    constructor <;> push_cast <;> linarith

/-- C5 witness: the theorem applied at the spec's worked example. -/
theorem c5_computeGrid_witness :
    (calculateGridDimensions 640 480 80 (1 / 2)).1 = 80 ∧
    1 ≤ (calculateGridDimensions 640 480 80 (1 / 2)).2 ∧
    |((calculateGridDimensions 640 480 80 (1 / 2)).2 : ℚ) -
        (80 : ℚ) * ((480 : ℚ) / (640 : ℚ)) / (1 / 2)| ≤ 1 ∧
    calculateGridDimensions 640 480 80 (1 / 2) = (80, 120) :=
  c5_computeGrid 640 480 80 (1 / 2) (by norm_num) (by norm_num) (by norm_num)
    (by norm_num)

/-- C8: with no explicit media type, the type is detected from the source
string's extension (after query stripping and lowercasing): the image
extension list maps to image mode, everything else — animated GIF and all
video formats included — is treated as video. -/
theorem c8_detectMediaType :
    detectMediaType "photo.jpg" = .image ∧
    detectMediaType "photo.jpeg" = .image ∧
    detectMediaType "photo.png" = .image ∧
    detectMediaType "photo.webp" = .image ∧
    detectMediaType "photo.bmp" = .image ∧
    detectMediaType "photo.svg" = .image ∧
    detectMediaType "anim.gif" = .video ∧
    detectMediaType "clip.mp4" = .video ∧
    detectMediaType "clip.webm" = .video ∧
    detectMediaType "clip.ogg" = .video ∧
    detectMediaType "clip.mov" = .video ∧
    detectMediaType "photo.PNG?width=100" = .image ∧
    detectMediaType "" = .video ∧
    detectMediaType "noextension" = .video ∧
    (∀ (explicit : MediaType) (src : String),
        resolvedMediaType (some explicit) src = explicit) ∧
    (∀ src : String, resolvedMediaType none src = detectMediaType src) :=
  ⟨by decide, by decide, by decide, by decide, by decide, by decide, by decide,
   by decide, by decide, by decide, by decide, by decide, by decide, by decide,
   fun _ _ => rfl, fun _ => rfl⟩

/-- C9: the frame-time history never exceeds 60 samples after a tick, and a
stats snapshot is emitted exactly when at least 1000 ms of wall-clock time
have elapsed since the last emission (the emission resets the window). -/
theorem c9_statsBoundedWindow (now d : ℚ) (s : StatsState)
    (hlen : s.frameTimes.length ≤ 60) :
    (statsTick now d s).1.frameTimes.length ≤ 60 ∧
    ((statsTick now d s).2.isSome = true ↔ 1000 ≤ now - s.lastFpsTime) ∧
    ((statsTick now d s).2.isSome = true →
      (statsTick now d s).1.lastFpsTime = now ∧
      (statsTick now d s).1.frameCount = 0) := by
  refine ⟨?_, ?_, ?_⟩
  · simp only [statsTick]
    split_ifs <;> simp_all [List.length_tail, List.length_append]
  · simp only [statsTick]
    split_ifs with h <;> simp [h]
  · simp only [statsTick]
    split_ifs with h <;> simp [h]

/-- C9 witness: the theorem applied at a concrete tick that emits a snapshot. -/
theorem c9_statsBoundedWindow_witness :
    (statsTick 1500 3 ⟨4, [1, 2], 0⟩).1.frameTimes.length ≤ 60 ∧
    ((statsTick 1500 3 ⟨4, [1, 2], 0⟩).2.isSome = true ↔
      1000 ≤ (1500 : ℚ) - (0 : ℚ)) ∧
    ((statsTick 1500 3 ⟨4, [1, 2], 0⟩).2.isSome = true →
      (statsTick 1500 3 ⟨4, [1, 2], 0⟩).1.lastFpsTime = 1500 ∧
      (statsTick 1500 3 ⟨4, [1, 2], 0⟩).1.frameCount = 0) :=
  c9_statsBoundedWindow 1500 3 ⟨4, [1, 2], 0⟩ (by norm_num)

/-- C10: the blend and highlight normalization performs no clamping — the
uniform written is exactly the input divided by 100, so inputs below 0 or
above 100 produce uniform values outside 0.0–1.0. -/
theorem c10_noClamping (b hl : ℚ) :
    blendUniform b = b / 100 ∧ highlightUniform hl = hl / 100 ∧
    (b < 0 → blendUniform b < 0) ∧ (100 < b → 1 < blendUniform b) ∧
    (hl < 0 → highlightUniform hl < 0) ∧ (100 < hl → 1 < highlightUniform hl) ∧
    (∀ (cfg : Config) (s : EngineState),
        s.glCtx = true → s.programRef ≠ none → s.locationsCached = true →
        (renderFrame cfg true s).uBlend = some (cfg.blend / 100) ∧
        (renderFrame cfg true s).uHighlight = some (cfg.highlight / 100)) := by
  refine ⟨rfl, rfl, ?_, ?_, ?_, ?_, ?_⟩
  · intro hb; exact div_neg_of_neg_of_pos hb (by norm_num)
  · intro hb; exact (one_lt_div (by norm_num)).mpr hb
  · intro hb; exact div_neg_of_neg_of_pos hb (by norm_num)
  · intro hb; exact (one_lt_div (by norm_num)).mpr hb
  · intro cfg s h1 h2 h3
    unfold renderFrame
    simp [h1, h2, h3, blendUniform, highlightUniform]

/-- C10 witness: concrete out-of-range inputs produce out-of-range uniforms,
and `renderFrame` on a ready state writes exactly `blend/100`. -/
theorem c10_noClamping_witness :
    blendUniform (-50) < 0 ∧ 1 < blendUniform 150 ∧
    (renderFrame cfg0 true sReady).uBlend = some (cfg0.blend / 100) :=
  ⟨(c10_noClamping (-50) 0).2.2.1 (by norm_num),
   (c10_noClamping 150 0).2.2.2.1 (by norm_num),
   ((c10_noClamping 0 0).2.2.2.2.2.2 cfg0 sReady (by decide) (by decide)
     (by decide)).1⟩

/-- C6: on every draw the blend input `b` is written to `u_blend` as `b/100`
and the highlight input as `h/100` (`blend=50 ↦ 0.5`, `highlight=100 ↦ 1`),
and the dither configuration maps to `u_ditherMode` as `"bayer" ↦ 1`,
`"random" ↦ 2`, `"none"`/unrecognized `↦ 0`. -/
theorem c6_uniformMapping :
    (∀ (cfg : Config) (s : EngineState),
        s.glCtx = true → s.programRef ≠ none → s.locationsCached = true →
        s.videoPaused = false → s.videoEnded = false →
        (render .video cfg true s).uBlend = some (cfg.blend / 100) ∧
        (render .video cfg true s).uHighlight = some (cfg.highlight / 100)) ∧
    blendUniform 50 = 1 / 2 ∧ highlightUniform 100 = 1 ∧
    ditherModeValue "bayer" = 1 ∧ ditherModeValue "random" = 2 ∧
    ditherModeValue "none" = 0 ∧
    (∀ d : String, d ≠ "bayer" → d ≠ "random" → ditherModeValue d = 0) ∧
    (∀ cfg : Config,
        (initWebGL .video envOk cfg EngineState.init).2.uDitherMode =
          some (ditherModeValue cfg.dither)) := by
  refine ⟨?_, by norm_num [blendUniform], by norm_num [highlightUniform],
    rfl, rfl, rfl, ?_, fun cfg => rfl⟩
  · intro cfg s h1 h2 h3 h4 h5
    unfold render
    simp [h1, h2, h3, h4, h5, scheduleRaf, blendUniform, highlightUniform]
  · intro d hb hr
    unfold ditherModeValue
    simp [hb, hr]

/-- C6 witness: a draw from the running state with `blend=50`,
`highlight=100`, `dither="random"`. -/
theorem c6_uniformMapping_witness :
    (render .video ⟨true, 50, 100, 1, "random"⟩ true sRunning).uBlend =
      some (50 / 100) ∧
    (render .video ⟨true, 50, 100, 1, "random"⟩ true sRunning).uHighlight =
      some (100 / 100) ∧
    (initWebGL .video envOk ⟨true, 50, 100, 1, "random"⟩
        EngineState.init).2.uDitherMode = some (ditherModeValue "random") :=
  ⟨(c6_uniformMapping.1 ⟨true, 50, 100, 1, "random"⟩ sRunning (by decide)
      (by decide) (by decide) (by decide) (by decide)).1,
   (c6_uniformMapping.1 ⟨true, 50, 100, 1, "random"⟩ sRunning (by decide)
      (by decide) (by decide) (by decide) (by decide)).2,
   c6_uniformMapping.2.2.2.2.2.2.2 ⟨true, 50, 100, 1, "random"⟩⟩

lemma mapSet_keys {α : Type} (m : List (String × α)) (id : String) (v : α) :
    (mapSet m id v).map Prod.fst =
      if m.any (fun p => p.1 == id) then m.map Prod.fst
      else m.map Prod.fst ++ [id] := by
  unfold mapSet
  split_ifs with h
  · rw [List.map_map]
    apply List.map_congr_left
    intro p _
    by_cases hpc : (p.1 == id) = true
    · simp [hpc, (eq_of_beq hpc).symm]
    · have hne : p.1 ≠ id := fun hpe => hpc (by simp [hpe])
      simp [hne]
  · simp

lemma mapSet_keys_nodup {α : Type} {m : List (String × α)} {id : String}
    {v : α} (hnd : (m.map Prod.fst).Nodup) :
    ((mapSet m id v).map Prod.fst).Nodup := by
  rw [mapSet_keys]
  split_ifs with h
  · exact hnd
  · have hid : id ∉ m.map Prod.fst := by
      intro hc
      rcases List.mem_map.mp hc with ⟨p, hp, hpe⟩
      have : m.any (fun p => p.1 == id) = true :=
        List.any_eq_true.mpr ⟨p, hp, by simp [hpe]⟩
      simp [this] at h
    simp [List.nodup_append, hnd, hid]

lemma filter_mapSet {α : Type} (m : List (String × α)) (id : String) (v : α)
    (hnd : (m.map Prod.fst).Nodup) :
    (mapSet m id v).filter (fun p => p.1 == id) = [(id, v)] := by
  unfold mapSet
  split_ifs with h
  · induction m with
    | nil => simp at h
    | cons hd tl ih =>
      simp only [List.map_cons, List.nodup_cons] at hnd
      by_cases hh : (hd.1 == id) = true
      · have hide : hd.1 = id := eq_of_beq hh
        have htl : ∀ p ∈ tl, (p.1 == id) = false := by
          intro p hp
          by_contra hc
          have hpe : p.1 = id := eq_of_beq (by simpa using hc)
          have : hd.1 ∈ tl.map Prod.fst := by
            rw [hide, ← hpe]
            exact List.mem_map_of_mem Prod.fst hp
          exact hnd.1 this
        have htlmap : tl.map (fun p => if p.1 == id then (id, v) else p) = tl :=
          (List.map_congr_left (fun p hp => by simp [htl p hp])).trans tl.map_id
        simp only [List.map_cons, hh, if_pos, List.filter_cons]
        rw [htlmap]
        have hfil : tl.filter (fun p => p.1 == id) = [] :=
          List.filter_eq_nil_iff.mpr (fun p hp => by simp [htl p hp])
        simp [hfil]
      · have hh' : (hd.1 == id) = false := by simpa using hh
        have hany : tl.any (fun p => p.1 == id) = true := by
          rcases List.any_eq_true.mp h with ⟨p, hp, hpe⟩
          rcases List.mem_cons.mp hp with rfl | hptl
          · simp [hh'] at hpe
          · exact List.any_eq_true.mpr ⟨p, hptl, hpe⟩
        have := ih hnd.2 hany
        simp only [List.map_cons, hh', List.filter_cons]
        simpa [hh'] using this
  · have h' : ∀ p ∈ m, (p.1 == id) = false := by
      intro p hp
      by_contra hc
      exact h (List.any_eq_true.mpr ⟨p, hp, by simpa using hc⟩)
    rw [List.filter_append]
    have hfil : m.filter (fun p => p.1 == id) = [] :=
      List.filter_eq_nil_iff.mpr (fun p hp => by simp [h' p hp])
    simp [hfil]

lemma filter_mapDelete {α : Type} (m : List (String × α)) (id : String) :
    (mapDelete m id).filter (fun p => p.1 == id) = [] := by
  unfold mapDelete
  rw [List.filter_filter]
  apply List.filter_eq_nil_iff.mpr
  intro p _
  by_cases hpc : (p.1 == id) = true <;> simp [hpc]
  exact eq_of_beq hpc

lemma not_mem_keys_mapDelete {α : Type} (m : List (String × α)) (id : String) :
    id ∉ tickInvokedIds (mapDelete m id) := by
  unfold tickInvokedIds mapDelete
  intro hc
  rcases List.mem_map.mp hc with ⟨p, hp, hpe⟩
  have := List.of_mem_filter hp
  simp [hpe] at this

/-- C7: re-registering under the same id replaces (exactly one entry, holding
the newer callback); registering then unregistering leaves the registry
without that entry (empty when it was the only one); and a frame tick
invokes exactly the currently registered contributor ids — never a removed
one. -/
theorem c7_registrySemantics (m : List (String × ℕ)) (id : String) (f g v : ℕ)
    (hnd : (m.map Prod.fst).Nodup) :
    ((registerUniformSetter (registerUniformSetter m id f) id g).filter
        (fun p => p.1 == id) = [(id, g)]) ∧
    ((unregisterUniformSetter (registerUniformSetter m id v) id).filter
        (fun p => p.1 == id) = []) ∧
    (unregisterUniformSetter
        (registerUniformSetter ([] : List (String × ℕ)) id v) id = []) ∧
    (id ∉ tickInvokedIds (unregisterUniformSetter m id)) ∧
    (∀ (cfg : Config) (s : EngineState),
        s.glCtx = true → s.programRef ≠ none → s.locationsCached = true →
        s.videoPaused = false → s.videoEnded = false →
        (render .video cfg true s).lastInvoked = tickInvokedIds s.registry) := by
  refine ⟨?_, ?_, ?_, not_mem_keys_mapDelete m id, ?_⟩
  · exact filter_mapSet _ id g (mapSet_keys_nodup hnd)
  · exact filter_mapDelete _ id
  · simp [registerUniformSetter, unregisterUniformSetter, mapSet, mapDelete]
  · intro cfg s h1 h2 h3 h4 h5
    unfold render
    simp [h1, h2, h3, h4, h5, scheduleRaf, tickInvokedIds]
    split <;> simp

/-- C7 witness: the theorem applied at a concrete two-feature registry and
the concrete running state. -/
theorem c7_registrySemantics_witness :
    ((registerUniformSetter (registerUniformSetter [("glow", 1)] "ripple" 2)
        "ripple" 3).filter (fun p => p.1 == "ripple") = [("ripple", 3)]) ∧
    ((unregisterUniformSetter (registerUniformSetter [("glow", 1)] "ripple" 2)
        "ripple").filter (fun p => p.1 == "ripple") = []) ∧
    ("ripple" ∉ tickInvokedIds (unregisterUniformSetter [("glow", 1)] "ripple")) ∧
    ((render .video cfg0 true sRunning).lastInvoked =
      tickInvokedIds sRunning.registry) := by
  have h := c7_registrySemantics [("glow", 1)] "ripple" 2 3 2 (by decide)
  exact ⟨h.1, h.2.1, h.2.2.2.1,
    h.2.2.2.2 cfg0 sRunning (by decide) (by decide) (by decide) (by decide)
      (by decide)⟩

/-- C1 counterexample: after a successful initialization (program handle 3,
atlas handle 6), a reinitialization run (as triggered by media-ready,
resize, or a layout-affecting config change) succeeds, yet the old
session's program and atlas texture are still allocated afterwards — they
were not torn down before or as part of creating the new session — while
the new session references fresh objects 9 and 11. -/
theorem c1_counterexample :
    sReady.isReady = true ∧
    sReady.programRef = some 3 ∧ sReady.atlasTextureRef = some 6 ∧
    (initWebGL .video envOk cfg0 sReady).1 = true ∧
    (3 : ℕ) ∈ (initWebGL .video envOk cfg0 sReady).2.liveGpu ∧
    (6 : ℕ) ∈ (initWebGL .video envOk cfg0 sReady).2.liveGpu ∧
    (initWebGL .video envOk cfg0 sReady).2.programRef = some 9 ∧
    (initWebGL .video envOk cfg0 sReady).2.atlasTextureRef = some 11 := by
  decide

/-- C1 (amended): when reinitialization runs while a GPU session already
exists, `initWebGL` builds the new session synchronously and replaces the
program and atlas references with freshly created objects, but it does not
tear down the old session's program and atlas texture — they remain
allocated (leaked) — and the media texture is reused rather than
recreated. -/
theorem c1_reinitLeavesOldObjects (s : EngineState) (cfg : Config) (p a t : ℕ)
    (hp : s.programRef = some p) (ha : s.atlasTextureRef = some a)
    (ht : s.videoTextureRef = some t)
    (hlp : p ∈ s.liveGpu) (hla : a ∈ s.liveGpu)
    (hbound : ∀ x ∈ s.liveGpu, x < s.nextGpuId) :
    (initWebGL .video envOk cfg s).1 = true ∧
    p ∈ (initWebGL .video envOk cfg s).2.liveGpu ∧
    a ∈ (initWebGL .video envOk cfg s).2.liveGpu ∧
    (initWebGL .video envOk cfg s).2.programRef = some (s.nextGpuId + 2) ∧
    (initWebGL .video envOk cfg s).2.atlasTextureRef = some (s.nextGpuId + 4) ∧
    (initWebGL .video envOk cfg s).2.programRef ≠ some p ∧
    (initWebGL .video envOk cfg s).2.atlasTextureRef ≠ some a ∧
    (initWebGL .video envOk cfg s).2.videoTextureRef = some t := by
  have hpn := hbound p hlp
  have han := hbound a hla
  unfold initWebGL
  simp [envOk, allocGpu, ht, hlp, hla]
  refine ⟨?_, ?_⟩ <;> omega

/-- C1 witness: the amended theorem applied at the concrete
once-initialized state. -/
theorem c1_reinitLeavesOldObjects_witness :
    (initWebGL .video envOk cfg0 sReady).1 = true ∧
    (3 : ℕ) ∈ (initWebGL .video envOk cfg0 sReady).2.liveGpu ∧
    (6 : ℕ) ∈ (initWebGL .video envOk cfg0 sReady).2.liveGpu ∧
    (initWebGL .video envOk cfg0 sReady).2.programRef =
      some (sReady.nextGpuId + 2) ∧
    (initWebGL .video envOk cfg0 sReady).2.atlasTextureRef =
      some (sReady.nextGpuId + 4) ∧
    (initWebGL .video envOk cfg0 sReady).2.programRef ≠ some 3 ∧
    (initWebGL .video envOk cfg0 sReady).2.atlasTextureRef ≠ some 6 ∧
    (initWebGL .video envOk cfg0 sReady).2.videoTextureRef = some 5 :=
  c1_reinitLeavesOldObjects sReady cfg0 3 6 5 (by decide) (by decide)
    (by decide) (by decide) (by decide) (by decide)

/-- C2 counterexample: when fragment-shader compilation fails, `initWebGL`
returns failure but the vertex shader compiled just before (handle 1) is
still allocated — the object created before the failing step was not
released before returning — and the context reference stays set. -/
theorem c2_counterexample :
    (initWebGL .video envFragFail cfg0 EngineState.init).1 = false ∧
    (initWebGL .video envFragFail cfg0 EngineState.init).2.liveGpu = [1] ∧
    (initWebGL .video envFragFail cfg0 EngineState.init).2.glCtx = true := by
  decide

/-- C2 (amended): a run failing at the element/readiness guards returns
failure with the state unchanged; a run failing to obtain the context
creates no GPU objects; but when fragment-shader compilation fails the
already-compiled vertex shader is not released before returning, and when
linking fails neither compiled shader is released; a failing run from the
no-session initial state leaves the session not-ready. -/
theorem c2_initFailureCleanup :
    (∀ (s : EngineState) (cfg : Config),
        initWebGL .video envNoCanvas cfg s = (false, s)) ∧
    (∀ (s : EngineState) (cfg : Config),
        (initWebGL .video envNoCtx cfg s).1 = false ∧
        (initWebGL .video envNoCtx cfg s).2.liveGpu = s.liveGpu ∧
        (initWebGL .video envNoCtx cfg s).2.isReady = s.isReady) ∧
    ((initWebGL .video envFragFail cfg0 EngineState.init).1 = false ∧
     (initWebGL .video envFragFail cfg0 EngineState.init).2.liveGpu = [1] ∧
     (initWebGL .video envFragFail cfg0 EngineState.init).2.isReady = false) ∧
    ((initWebGL .video envLinkFail cfg0 EngineState.init).1 = false ∧
     (initWebGL .video envLinkFail cfg0 EngineState.init).2.liveGpu = [1, 2] ∧
     (initWebGL .video envLinkFail cfg0 EngineState.init).2.isReady = false) := by
  refine ⟨?_, ?_, by decide, by decide⟩
  · intro s cfg
    unfold initWebGL
    simp [envNoCanvas, envOk]
  · intro s cfg
    unfold initWebGL
    simp [envNoCtx, envOk]

/-- C2 witness: the amended theorem's universally quantified parts applied
at the initial state and default configuration. -/
theorem c2_initFailureCleanup_witness :
    initWebGL .video envNoCanvas cfg0 EngineState.init =
      (false, EngineState.init) ∧
    (initWebGL .video envNoCtx cfg0 EngineState.init).1 = false :=
  ⟨c2_initFailureCleanup.1 EngineState.init cfg0,
   (c2_initFailureCleanup.2.1 EngineState.init cfg0).1⟩

lemma image_tick_props (s : EngineState)
    (h1 : s.glCtx = true) (h2 : s.programRef ≠ none)
    (h3 : s.locationsCached = true) (h4 : s.pending ≠ none) :
    (step .image envOk cfg0 .tickFire s).draws = s.draws + 1 ∧
    (step .image envOk cfg0 .tickFire s).glCtx = true ∧
    (step .image envOk cfg0 .tickFire s).programRef = s.programRef ∧
    (step .image envOk cfg0 .tickFire s).locationsCached = true ∧
    (step .image envOk cfg0 .tickFire s).pending ≠ none := by
  rcases hpend : s.pending with _ | h
  · exact absurd hpend h4
  · simp only [step, hpend]
    unfold render
    simp [h1, h2, h3, envOk, scheduleRaf]

lemma image_ticks_props (k : ℕ) : ∀ (s : EngineState),
    s.glCtx = true → s.programRef ≠ none → s.locationsCached = true →
    s.pending ≠ none →
    (ticks .image envOk cfg0 k s).draws = s.draws + k ∧
    (ticks .image envOk cfg0 k s).pending ≠ none := by
  induction k with
  | zero =>
      intro s _ _ _ h4
      exact ⟨rfl, h4⟩
  | succ n ih =>
      intro s h1 h2 h3 h4
      have hstep := image_tick_props s h1 h2 h3 h4
      have hiter : ticks .image envOk cfg0 (n + 1) s =
          ticks .image envOk cfg0 n (step .image envOk cfg0 .tickFire s) := by
        simp [ticks, Function.iterate_succ_apply]
      rw [hiter]
      have hrec := ih _ hstep.2.1 (by rw [hstep.2.2.1]; exact h2)
        hstep.2.2.2.1 hstep.2.2.2.2
      refine ⟨?_, hrec.2⟩
      rw [hrec.1, hstep.1]
      omega

/-- C3: for an image source, with no uniform contributor registered at load
time the engine performs exactly one draw after successful initialization
and schedules no tick (the loop stays stopped); with at least one
contributor registered at load time, a tick is scheduled and every firing
draws once and re-arms — continuous ticking. -/
theorem c3_imageSingleShot (reg : List (String × ℕ)) :
    (reg = [] →
      (step .image envOk cfg0 .imageLoad
          { EngineState.init with registry := reg }).draws = 1 ∧
      (step .image envOk cfg0 .imageLoad
          { EngineState.init with registry := reg }).pending = none ∧
      (step .image envOk cfg0 .imageLoad
          { EngineState.init with registry := reg }).isPlaying = false) ∧
    (0 < reg.length →
      (step .image envOk cfg0 .imageLoad
          { EngineState.init with registry := reg }).draws = 1 ∧
      ∀ k : ℕ,
        (ticks .image envOk cfg0 k (step .image envOk cfg0 .imageLoad
            { EngineState.init with registry := reg })).draws = 1 + k ∧
        (ticks .image envOk cfg0 k (step .image envOk cfg0 .imageLoad
            { EngineState.init with registry := reg })).pending ≠ none) := by
  constructor
  · rintro rfl
    decide
  · intro hreg
    have hsL : step .image envOk cfg0 .imageLoad
        { EngineState.init with registry := reg } =
        scheduleRaf ((initWebGL .image envOk cfg0
          { EngineState.init with registry := reg }).2) := by
      simp only [step]
      have : (initWebGL .image envOk cfg0
          { EngineState.init with registry := reg }).2.registry = reg := by
        simp [initWebGL, renderFrame, envOk, cfg0, EngineState.init, allocGpu]
      simp [this, hreg]
    have hglCtx : (initWebGL .image envOk cfg0
        { EngineState.init with registry := reg }).2.glCtx = true := by
      simp [initWebGL, renderFrame, envOk, cfg0, EngineState.init, allocGpu]
    have hprog : (initWebGL .image envOk cfg0
        { EngineState.init with registry := reg }).2.programRef = some 3 := by
      simp [initWebGL, renderFrame, envOk, cfg0, EngineState.init, allocGpu]
    have hloc : (initWebGL .image envOk cfg0
        { EngineState.init with registry := reg }).2.locationsCached = true := by
      simp [initWebGL, renderFrame, envOk, cfg0, EngineState.init, allocGpu]
    have hdraws : (initWebGL .image envOk cfg0
        { EngineState.init with registry := reg }).2.draws = 1 := by
      simp [initWebGL, renderFrame, envOk, cfg0, EngineState.init, allocGpu]
    rw [hsL]
    refine ⟨by simp [scheduleRaf, hdraws], fun k => ?_⟩
    have hticks := image_ticks_props k
      (scheduleRaf (initWebGL .image envOk cfg0
        { EngineState.init with registry := reg }).2)
      (by simp [scheduleRaf, hglCtx])
      (by simp [scheduleRaf, hprog])
      (by simp [scheduleRaf, hloc])
      (by simp [scheduleRaf])
    refine ⟨?_, hticks.2⟩
    rw [hticks.1]
    simp [scheduleRaf, hdraws]

/-- C3 witness: the theorem applied at the empty registry (one draw, no
tick) and at a one-contributor registry (two tick firings accumulate two
more draws while staying armed). -/
theorem c3_imageSingleShot_witness :
    ((step .image envOk cfg0 .imageLoad
        { EngineState.init with
          registry := ([] : List (String × ℕ)) }).draws = 1 ∧
     (step .image envOk cfg0 .imageLoad
        { EngineState.init with
          registry := ([] : List (String × ℕ)) }).pending = none ∧
     (step .image envOk cfg0 .imageLoad
        { EngineState.init with
          registry := ([] : List (String × ℕ)) }).isPlaying = false) ∧
    ((ticks .image envOk cfg0 2 (step .image envOk cfg0 .imageLoad
        { EngineState.init with registry := [("glow", 7)] })).draws = 1 + 2 ∧
     (ticks .image envOk cfg0 2 (step .image envOk cfg0 .imageLoad
        { EngineState.init with registry := [("glow", 7)] })).pending ≠ none) :=
  ⟨(c3_imageSingleShot []).1 rfl,
   ((c3_imageSingleShot [("glow", 7)]).2 (by norm_num)).2 2⟩

lemma nonplay_step_props (e : Ev) (he : e ≠ .play) (env : GlEnv) (cfg : Config)
    (s : EngineState) (hp : s.pending = none) :
    (step .video env cfg e s).pending = none ∧
    (step .video env cfg e s).draws = s.draws := by
  cases e with
  | play => exact absurd rfl he
  | pause => simp [step, cancelRaf, hp]
  | ended => simp [step, cancelRaf, hp]
  | tickFire => simp [step, hp]
  | imageLoad => simp [step, hp]
  | unmountCleanup =>
      cases hv : s.videoTextureRef <;> cases ha : s.atlasTextureRef <;>
        cases hq : s.programRef <;> cases hg : s.glCtx <;>
        simp [step, deleteGpu, cancelRaf, hp, hv, ha, hq, hg]

lemma noplay_trace (env : GlEnv) (cfg : Config) (evs : List Ev) :
    ∀ s : EngineState, Ev.play ∉ evs → s.pending = none →
    (evs.foldl (fun t e => step .video env cfg e t) s).pending = none ∧
    (evs.foldl (fun t e => step .video env cfg e t) s).draws = s.draws := by
  induction evs with
  | nil => intro s _ hp; exact ⟨hp, rfl⟩
  | cons e tl ih =>
      intro s hmem hp
      have he : e ≠ .play := fun h => hmem (h ▸ List.mem_cons_self e tl)
      have h1 := nonplay_step_props e he env cfg s hp
      simp only [List.foldl_cons]
      have h2 := ih _ (fun h => hmem (List.mem_cons_of_mem _ h)) h1.1
      exact ⟨h2.1, h2.2.trans h1.2⟩

lemma stop_step_props (s : EngineState) (env : GlEnv) (cfg : Config) (e : Ev)
    (hinv : ∀ h, s.pending = some h → h = s.animationRef)
    (he : e = .pause ∨ e = .ended ∨ e = .unmountCleanup) :
    (step .video env cfg e s).pending = none ∧
    (step .video env cfg e s).draws = s.draws := by
  rcases hpd : s.pending with _ | h
  · have hne : e ≠ .play := by rcases he with rfl | rfl | rfl <;> simp
    exact nonplay_step_props e hne env cfg s hpd
  · have hha := hinv h hpd
    subst hha
    rcases he with rfl | rfl | rfl
    · simp [step, cancelRaf, hpd]
    · simp [step, cancelRaf, hpd]
    · cases hv : s.videoTextureRef <;> cases ha : s.atlasTextureRef <;>
        cases hq : s.programRef <;> cases hg : s.glCtx <;>
        simp [step, deleteGpu, cancelRaf, hpd, hv, ha, hq, hg]

/-- C4: every transition of the render loop from Running to Stopped (video
`pause`, video `ended`, or the consumer unmounting) synchronously cancels
the pending scheduled tick — given that the stored animation handle tracks
the pending request, which every scheduling site maintains — so no draw call
executes after the transition until a `play` event restarts the loop. -/
theorem c4_stopCancelsTick (s : EngineState) (env : GlEnv) (cfg : Config)
    (e : Ev)
    (hinv : ∀ h, s.pending = some h → h = s.animationRef)
    (he : e = .pause ∨ e = .ended ∨ e = .unmountCleanup) :
    (step .video env cfg e s).pending = none ∧
    (step .video env cfg e s).draws = s.draws ∧
    (∀ evs : List Ev, Ev.play ∉ evs →
      (evs.foldl (fun t ev => step .video env cfg ev t)
        (step .video env cfg e s)).draws = s.draws) := by
  have h1 := stop_step_props s env cfg e hinv he
  refine ⟨h1.1, h1.2, fun evs hmem => ?_⟩
  have h2 := noplay_trace env cfg evs _ hmem h1.1
  exact h2.2.trans h1.2

/-- C4 witness: pausing the concrete running state cancels its pending tick
and two subsequent tick firings draw nothing. -/
theorem c4_stopCancelsTick_witness :
    (step .video envOk cfg0 .pause sRunning).pending = none ∧
    (step .video envOk cfg0 .pause sRunning).draws = sRunning.draws ∧
    ([Ev.tickFire, Ev.tickFire].foldl
        (fun t ev => step .video envOk cfg0 ev t)
        (step .video envOk cfg0 .pause sRunning)).draws = sRunning.draws := by
  have hinv : ∀ h, sRunning.pending = some h → h = sRunning.animationRef := by
    intro x hx
    have h1 : sRunning.pending = some 1 := by decide
    have h2 : sRunning.animationRef = 1 := by decide
    rw [h1] at hx
    injection hx with hxe
    rw [h2, ← hxe]
  have h := c4_stopCancelsTick sRunning envOk cfg0 .pause hinv (Or.inl rfl)
  exact ⟨h.1, h.2.1, h.2.2 [Ev.tickFire, Ev.tickFire] (by decide)⟩

/-- C8 witness: the explicit prop overrides detection; with no prop the
detected type is used. -/
theorem c8_detectMediaType_witness :
    resolvedMediaType (some .image) "clip.mp4" = .image ∧
    resolvedMediaType none "clip.mp4" = detectMediaType "clip.mp4" :=
  ⟨c8_detectMediaType.2.2.2.2.2.2.2.2.2.2.2.2.2.2.1 .image "clip.mp4",
   c8_detectMediaType.2.2.2.2.2.2.2.2.2.2.2.2.2.2.2 "clip.mp4"⟩
